import Mathlib

/-!
Verification of the CCTView migration engine
(backend/app/services/migration_service.py and the cache/store methods it
depends on: backend/app/db/redis/client.py, backend/app/db/neo4j/client.py,
backend/app/api/v1/endpoints/migration.py, backend/app/core/config.py).

Shallow embedding conventions:
* Timestamps are modelled as rationals (seconds).  The Python code stores
  ISO-8601 strings and converts them with datetime.fromisoformat; durations
  are differences in seconds, which we take exactly.
* Python floats are idealised as rationals.  None of the verified claims
  depends on floating-point rounding.
* All I/O is modelled by explicit state passing: the Redis cache is a list
  of entries, the Neo4j store a record of camera ids and event rows, and
  every collaborator invocation that writes (the Cypher event-creation
  query) or deletes (the Redis delete) is logged in an explicit call trace.
* Fallible operations return a Bool success flag exactly where the Python
  functions do.
-/

namespace CCTView

/-! ## Data model -/

/-- The payload of one hot-cache caption record (the dict stored under the
meta key in Redis and surfaced as item.data by the expiry scan):
caption text, AI confidence, optional embedding vector. -/
structure CaptionData where
  caption : String
  confidence : ℚ
  embedding : List ℚ
deriving DecidableEq

/-- One element of the list returned by RedisClient.get_keys_near_expiry:
the cache key, the camera id and timestamp parsed from it, and the resolved
metadata.  (The ttl_remaining field of the Python dict is not used by the
grouping code and is kept on the cache-entry side of the model.) -/
structure CaptionItem where
  key : String
  camera_id : String
  timestamp : ℚ
  data : CaptionData
deriving DecidableEq

/-- The current_group dict built by MigrationService._deduplicate_captions
(lines 168-175): opening caption and embedding, running-mean confidence,
start/end timestamps and member count. -/
structure CaptionGroup where
  caption : String
  confidence : ℚ
  start_time : ℚ
  end_time : ℚ
  embedding : List ℚ
  count : ℕ
deriving DecidableEq

/-! ## Configuration (backend/app/core/config.py)

The pydantic Settings class defines these fields with the following shipped
defaults; the migration service reads them through getattr with a fallback
that is used only when the attribute is absent. -/

/-- Settings.CAPTION_SIMILARITY_THRESHOLD (config.py line 126). -/
def CAPTION_SIMILARITY_THRESHOLD : ℚ := 0.95

/-- Settings.MIN_CAPTION_DURATION (config.py line 127). -/
def MIN_CAPTION_DURATION : ℚ := 60

/-- Settings.MAX_CAPTION_DURATION (config.py line 128). -/
def MAX_CAPTION_DURATION : ℚ := 300

/-- Settings.REDIS_MIGRATION_THRESHOLD (config.py line 62). -/
def REDIS_MIGRATION_THRESHOLD : ℤ := 300

/-- Settings.REDIS_TTL_2HOUR (config.py line 61). -/
def REDIS_TTL_2HOUR : ℤ := 7200

/-- The three tunables read by MigrationService.__init__. -/
structure MigCfg where
  similarity_threshold : ℚ
  min_duration : ℚ
  max_duration : ℚ
deriving DecidableEq

/-- The configuration of the shipped MigrationService singleton.
Its __init__ does getattr(settings, 'CAPTION_SIMILARITY_THRESHOLD', 0.85)
and likewise for the durations; since the Settings class defines all three
attributes, getattr returns the config values and the literal fallbacks
(0.85, 5, 300) are dead. -/
def migrationServiceCfg : MigCfg :=
  { similarity_threshold := CAPTION_SIMILARITY_THRESHOLD
    min_duration := MIN_CAPTION_DURATION
    max_duration := MAX_CAPTION_DURATION }

/-! ## SimilarityEngine (MigrationService._are_captions_similar)

The string normalisation helpers below implement Python's str.lower,
str.strip and str.split() character-by-character over the string's
character list (Lean's own String.toLower, String.trim and String.split
use iterator loops that the kernel cannot evaluate).  Python's lower and
whitespace classes cover Unicode while Char.toLower and Char.isWhitespace
cover ASCII; no claim depends on non-ASCII captions. -/

/-- Python str.lower (ASCII case folding). -/
def pyLower (s : String) : String :=
  String.mk (s.data.map Char.toLower)

/-- Python str.strip: remove leading and trailing whitespace. -/
def pyStrip (s : String) : String :=
  String.mk (((s.data.dropWhile Char.isWhitespace).reverse.dropWhile Char.isWhitespace).reverse)

/-- Accumulator-based splitter behind pySplitWhitespace: acc holds the
current word reversed. -/
def splitWSAux : List Char → List Char → List String
  | [], acc => if acc.isEmpty then [] else [String.mk acc.reverse]
  | c :: cs, acc =>
    if c.isWhitespace then
      if acc.isEmpty then splitWSAux cs [] else String.mk acc.reverse :: splitWSAux cs []
    else splitWSAux cs (c :: acc)

/-- Python str.split() with no argument: split on runs of whitespace,
discarding empty pieces. -/
def pySplitWhitespace (s : String) : List String :=
  splitWSAux s.data []

/-- Tokenisation used by the text fallback: set(caption.split()). -/
def pyTokens (s : String) : Finset String :=
  (pySplitWhitespace s).toFinset

/-- Dot product of two embedding vectors (numpy operates pointwise over the
common length; the caller has already checked the lengths are equal). -/
def dotQ (a b : List ℚ) : ℚ :=
  (List.zipWith (fun x y => x * y) a b).sum

/-- Decision procedure for "cosine similarity of e1 and e2 is at least t"
for a positive threshold t, as computed by
sklearn.metrics.pairwise.cosine_similarity: with n1 = dotQ e1 e1,
n2 = dotQ e2 e2 the cosine is dotQ e1 e2 / sqrt (n1 * n2), and sklearn
treats a zero vector as having similarity 0 (it normalises zero rows to
zero).  For positive t and nonzero vectors the comparison
t <= d / sqrt (n1 * n2) is equivalent to 0 <= d and t^2 * n1 * n2 <= d^2,
which is decidable over the rationals; cosGE_models_cosine below proves
that equivalence. -/
def cosGE (e1 e2 : List ℚ) (t : ℚ) : Bool :=
  if dotQ e1 e1 = 0 ∨ dotQ e2 e2 = 0 then decide ((0 : ℚ) ≥ t)
  else decide (0 ≤ dotQ e1 e2 ∧ t ^ 2 * (dotQ e1 e1 * dotQ e2 e2) ≤ dotQ e1 e2 ^ 2)

/-- MigrationService._are_captions_similar (migration_service.py 252-292).
If both embeddings are non-empty lists of equal length the embedding branch
decides cosine similarity against the threshold (the numpy computation on
rational inputs raises no exception, so the except fall-through is dead);
otherwise both captions are lowercased and stripped, an exact match is
similar, and otherwise the token-overlap ratio is compared with 0.8, with
an explicit False when either token set is empty. -/
def areCaptionsSimilar (thr : ℚ) (caption1 caption2 : String)
    (embedding1 embedding2 : List ℚ) : Bool :=
  if embedding1 ≠ [] ∧ embedding2 ≠ [] ∧ embedding1.length = embedding2.length then
    cosGE embedding1 embedding2 thr
  else
    let c1_norm := pyStrip (pyLower caption1)
    let c2_norm := pyStrip (pyLower caption2)
    if c1_norm = c2_norm then true
    else
      let words1 := pyTokens c1_norm
      let words2 := pyTokens c2_norm
      if words1 = ∅ ∨ words2 = ∅ then false
      else decide (((words1 ∩ words2).card : ℚ) / (max words1.card words2.card : ℚ) ≥ 0.8)

/-- Reference similarity predicate, written to the spec's words (section
4.2): embeddings of equal dimensionality decide by cosine against the
threshold; the fallback normalises (lowercase, trim), takes exact match as
similar, and otherwise compares the token-overlap ratio
card (intersection) / max (card a) (card b) with 0.8 - with no separate
empty-token guard. -/
def specSimilar (thr : ℚ) (c1 c2 : String) (e1 e2 : List ℚ) : Bool :=
  if e1 ≠ [] ∧ e2 ≠ [] ∧ e1.length = e2.length then
    cosGE e1 e2 thr
  else
    let n1 := pyStrip (pyLower c1)
    let n2 := pyStrip (pyLower c2)
    if n1 = n2 then true
    else decide (((pyTokens n1 ∩ pyTokens n2).card : ℚ) /
      (max (pyTokens n1).card (pyTokens n2).card : ℚ) ≥ 0.8)

/-! ## TemporalGrouper (MigrationService._deduplicate_captions) -/

/-- The fresh group started from one record (lines 168-175 and 224-231). -/
def startGroup (item : CaptionItem) : CaptionGroup :=
  { caption := item.data.caption
    confidence := item.data.confidence
    start_time := item.timestamp
    end_time := item.timestamp
    embedding := item.data.embedding
    count := 1 }

/-- Group extension (lines 199-204): the end time moves to the new record,
the count is incremented first, and the confidence is updated with the
incremental-mean formula (conf * (count - 1) + new) / count evaluated at
the already-incremented count. -/
def extendGroup (g : CaptionGroup) (d : CaptionData) (ts : ℚ) : CaptionGroup :=
  { g with
    end_time := ts
    count := g.count + 1
    confidence := (g.confidence * (((g.count : ℚ) + 1) - 1) + d.confidence) / ((g.count : ℚ) + 1) }

/-- The save filter applied to a flushed group (lines 214-215 and 240-241):
keep it when it has more than one frame or spans at least min_duration. -/
def shouldSave (cfg : MigCfg) (g : CaptionGroup) : Bool :=
  decide (1 < g.count ∨ cfg.min_duration ≤ g.end_time - g.start_time)

/-- One iteration of the loop body (lines 179-232): extend the current
group when the record is similar to the group's opening caption and lies
within max_duration of the group start; otherwise flush the group through
the save filter and start a new one. -/
def dedupStep (cfg : MigCfg) :
    List CaptionGroup × CaptionGroup → CaptionItem → List CaptionGroup × CaptionGroup
  | (events, g), item =>
    let duration := item.timestamp - g.start_time
    let is_similar := areCaptionsSimilar cfg.similarity_threshold
      g.caption item.data.caption g.embedding item.data.embedding
    if is_similar ∧ duration ≤ cfg.max_duration then
      (events, extendGroup g item.data item.timestamp)
    else
      ((if shouldSave cfg g then events ++ [g] else events), startGroup item)

/-- MigrationService._deduplicate_captions (lines 152-250): a single
left-to-right pass over the records; the final group is flushed through
the same save filter as the interior ones (lines 234-247). -/
def deduplicateCaptions (cfg : MigCfg) : List CaptionItem → List CaptionGroup
  | [] => []
  | c :: rest =>
    let st := rest.foldl (dedupStep cfg) ([], startGroup c)
    if shouldSave cfg st.2 then st.1 ++ [st.2] else st.1

/-! ## Run-level reference view of the grouping pass

To reason about which records fold into which group we re-express the pass
at the level of record runs: a run is the nonempty list of consecutive
records that one group absorbs.  The theorem dedup_eq_groupRuns below
proves that the code's fold is exactly the save-filtered summary of these
runs; in particular every similarity comparison the code makes is against
the run's first record (the opener), whose caption, embedding and start
time the code never overwrites. -/

/-- A nonempty run of consecutive records: the opener plus the later
members, in input order. -/
structure Run where
  opener : CaptionItem
  rest : List CaptionItem
deriving DecidableEq

/-- The records of a run, in input order. -/
def Run.toList (r : Run) : List CaptionItem :=
  r.opener :: r.rest

/-- The extension test of the loop, phrased against a run's opener: the
candidate is similar to the opening record and lies within max_duration of
the opener's timestamp. -/
def itemExtends (cfg : MigCfg) (opener item : CaptionItem) : Bool :=
  areCaptionsSimilar cfg.similarity_threshold
      opener.data.caption item.data.caption opener.data.embedding item.data.embedding
    && decide (item.timestamp - opener.timestamp ≤ cfg.max_duration)

/-- The group the code's fold maintains for a given run: opener caption,
embedding and start time; last member's timestamp as end time; member
count; arithmetic-mean confidence. -/
def summarize (r : Run) : CaptionGroup :=
  { caption := r.opener.data.caption
    confidence := (r.toList.map (fun it => it.data.confidence)).sum / ((r.rest.length : ℚ) + 1)
    start_time := r.opener.timestamp
    end_time := ((r.rest.getLast?).getD r.opener).timestamp
    embedding := r.opener.data.embedding
    count := r.rest.length + 1 }

/-- Run-level mirror of dedupStep: extend the current run, or close it and
open a new one. -/
def runStep (cfg : MigCfg) : List Run × Run → CaptionItem → List Run × Run
  | (done, r), item =>
    if itemExtends cfg r.opener item then (done, ⟨r.opener, r.rest ++ [item]⟩)
    else (done ++ [r], ⟨item, []⟩)

/-- The partition of the input into the runs the pass flushes, the final
run included (and not yet filtered). -/
def groupRuns (cfg : MigCfg) : List CaptionItem → List Run
  | [] => []
  | c :: rest =>
    let st := rest.foldl (runStep cfg) ([], ⟨c, []⟩)
    st.1 ++ [st.2]

/-! ## Hot cache, durable store and the orchestration methods

The remaining definitions model the I/O surface the migration methods
drive: the Redis cache as a list of entries, the Neo4j store as camera ids
plus event rows, and the write/delete collaborator invocations as an
explicit trace. -/

/-- One meta record in the Redis cache together with its caption and
embedding facets: the key (of the form meta:camera:timestamp), the camera
id and timestamp encoded in it, the remaining TTL in seconds, and the
resolved payload.  parseable is false for a malformed entry: one whose
metadata cannot be fetched or parsed (get_caption_with_metadata returns
None or raises), which the scan skips. -/
structure CacheEntry where
  key : String
  camera_id : String
  timestamp : ℚ
  ttl : ℤ
  parseable : Bool
  data : CaptionData
deriving DecidableEq

/-- Camera filter of the scan: a concrete camera restricts the key pattern
to meta:camera:*, no filter scans meta:*. -/
def entryMatches (cameraFilter : Option String) (e : CacheEntry) : Bool :=
  match cameraFilter with
  | none => true
  | some c => decide (e.camera_id = c)

/-- RedisClient.get_keys_near_expiry (redis/client.py 167-245): keep the
entries matching the pattern whose TTL satisfies 0 < ttl <= threshold and
whose metadata resolves; a malformed entry is skipped (the per-key
exception handler logs and continues, and a None metadata result is
dropped silently) - nothing is counted or returned for it. -/
def getKeysNearExpiry (cameraFilter : Option String) (threshold : ℤ)
    (cache : List CacheEntry) : List CacheEntry :=
  cache.filter fun e =>
    entryMatches cameraFilter e && decide (0 < e.ttl) && decide (e.ttl ≤ threshold) && e.parseable

/-- The dict the scan returns for one entry, as consumed by the migration
service. -/
def toItem (e : CacheEntry) : CaptionItem :=
  { key := e.key, camera_id := e.camera_id, timestamp := e.timestamp, data := e.data }

/-- One Event row in Neo4j as created by the migration query. The
retention_until property (computed from the wall clock at write time) is
outside the modelled state; no claim concerns it. -/
structure NeoEvent where
  id : String
  camera_id : String
  caption : String
  start_time : ℚ
  end_time : ℚ
  duration : ℚ
  confidence : ℚ
  frame_count : ℕ
deriving DecidableEq

/-- The durable store: the camera nodes present, the event rows, and
whether the uniqueness constraint on Event.id is installed.
Neo4jClient.initialize_schema (neo4j/client.py 119-147) and migration
001_initial_schema declare CREATE CONSTRAINT event_id REQUIRE e.id IS
UNIQUE, but no code path invokes initialize_schema, so on the shipped
startup path (app/main.py lifespan only verifies connectivity) a fresh
database has id_unique_constraint = false. -/
structure NeoState where
  cameras : List String
  events : List NeoEvent
  id_unique_constraint : Bool
deriving DecidableEq

/-- A state-changing collaborator invocation: the Cypher event-creation
query of _store_event_in_neo4j, or the Redis delete issued by
mark_for_deletion. -/
inductive DbCall where
  | write (camera_id : String) (event_id : String) : DbCall
  | delete (keys : List String) : DbCall
deriving DecidableEq

/-- Python int() applied to a float: truncation toward zero. -/
def pyInt (q : ℚ) : ℤ :=
  if 0 ≤ q then ⌊q⌋ else -⌊-q⌋

/-- The event id computed at migration_service.py line 308:
evt_ followed by the camera id and int(start_time.timestamp()), i.e. the
start time truncated to the second. -/
def eventIdFor (camera_id : String) (start_time : ℚ) : String :=
  "evt_" ++ camera_id ++ "_" ++ toString (pyInt start_time)

/-- The Event row the Cypher CREATE writes: parameters of the query at
migration_service.py lines 333-343 (retention_until omitted, see
NeoEvent). -/
def mkNeoEvent (camera_id : String) (g : CaptionGroup) : NeoEvent :=
  { id := eventIdFor camera_id g.start_time, camera_id := camera_id, caption := g.caption,
    start_time := g.start_time, end_time := g.end_time,
    duration := g.end_time - g.start_time, confidence := g.confidence,
    frame_count := g.count }

/-- MigrationService._store_event_in_neo4j (migration_service.py 294-362).
The query is MATCH the camera node then CREATE the event node: if the
camera node is absent the CREATE never runs, the result list is empty and
the method returns False; if the uniqueness constraint on Event.id is
installed and a row with this id exists, the CREATE raises, the exception
handler returns False and the transaction leaves no partial write;
otherwise the row is appended (a plain CREATE, not an upsert) and the
method returns True. -/
def storeEventInNeo4j (camera_id : String) (g : CaptionGroup) (neo : NeoState) :
    Bool × NeoState × List DbCall :=
  let event_id := eventIdFor camera_id g.start_time
  let calls := [DbCall.write camera_id event_id]
  if camera_id ∈ neo.cameras then
    if neo.id_unique_constraint && neo.events.any (fun e => decide (e.id = event_id)) then
      (false, neo, calls)
    else
      (true, { neo with events := neo.events ++ [mkNeoEvent camera_id g] }, calls)
  else (false, neo, calls)

/-- Python list.sort with the timestamp key is a stable sort; a stable sort
by a total preorder is uniquely determined, so insertion sort models it
exactly.  (The Python code sorts the ISO timestamp strings; the model
orders the parsed timestamps, which agrees on the uniform format the
producers write.) -/
def sortByTimestamp (items : List CaptionItem) : List CaptionItem :=
  List.insertionSort (fun a b => a.timestamp ≤ b.timestamp) items

/-- MigrationService._process_camera_captions (migration_service.py
111-150): sort the camera's records by timestamp, group them, and store
each group, counting the successful writes; a write failure or exception
only skips the increment. -/
def processCameraCaptions (cfg : MigCfg) (camera_id : String)
    (captions : List CaptionItem) (neo : NeoState) : ℕ × NeoState × List DbCall :=
  if captions.isEmpty then (0, neo, [])
  else
    let grouped := deduplicateCaptions cfg (sortByTimestamp captions)
    grouped.foldl
      (fun acc g =>
        let r := storeEventInNeo4j camera_id g acc.2.1
        ((if r.1 then acc.1 + 1 else acc.1), r.2.1, acc.2.2 ++ r.2.2))
      (0, neo, [])

/-- RedisClient.mark_for_deletion (redis/client.py 353-392): one Redis
delete call covering the caption, embedding and meta facets of every key
passed; the model removes the entries and reports how many meta records
were deleted (the Python return value also counts the facet keys; no
claim depends on the number). -/
def markForDeletion (keys : List String) (cache : List CacheEntry) :
    ℕ × List CacheEntry × List DbCall :=
  if keys.isEmpty then (0, cache, [])
  else
    let remaining := cache.filter (fun e => decide (e.key ∉ keys))
    ((cache.filter (fun e => decide (e.key ∈ keys))).length, remaining, [DbCall.delete keys])

/-- MigrationService._group_by_camera (migration_service.py 96-109):
partition the scanned items by camera id, preserving first-seen camera
order and per-camera item order (Python dict insertion order). -/
def groupByCamera (items : List CaptionItem) : List (String × List CaptionItem) :=
  items.foldl
    (fun acc it =>
      if acc.any (fun p => decide (p.1 = it.camera_id)) then
        acc.map (fun p => if p.1 = it.camera_id then (p.1, p.2 ++ [it]) else p)
      else acc ++ [(it.camera_id, [it])])
    []

/-- The stats dict of run_migration_check. -/
structure RunStats where
  cameras_processed : ℕ
  captions_found : ℕ
  events_created : ℕ
  redis_keys_deleted : ℕ
  errors : ℕ
deriving DecidableEq

/-- The external mutable state a migration run touches. -/
structure World where
  cache : List CacheEntry
  neo : NeoState
deriving DecidableEq

/-- MigrationService.run_migration_check (migration_service.py 36-94):
scan every camera's keys against REDIS_MIGRATION_THRESHOLD, group them by
camera, and for each camera store the merged events and then delete ALL of
that camera's scanned keys - the deletion is not conditioned on the write
results.  (The keys are read from the per-camera list after
_process_camera_captions has sorted it in place, hence the sort before the
delete call.)  The errors counter is incremented only when a per-camera block
or the whole run raises; in this deterministic I/O model no exception is
raised, so it stays 0 (in particular a malformed cache entry is swallowed
inside the scan and never reaches it). -/
def runMigrationCheck (cfg : MigCfg) (world : World) :
    RunStats × World × List DbCall :=
  let expiring := (getKeysNearExpiry none REDIS_MIGRATION_THRESHOLD world.cache).map toItem
  if expiring.isEmpty then
    ({ cameras_processed := 0, captions_found := 0, events_created := 0,
       redis_keys_deleted := 0, errors := 0 }, world, [])
  else
    let groups := groupByCamera expiring
    groups.foldl
      (fun acc cg =>
        let pr := processCameraCaptions cfg cg.1 cg.2 acc.2.1.neo
        let dr := markForDeletion ((sortByTimestamp cg.2).map (fun it => it.key)) acc.2.1.cache
        ({ acc.1 with
            events_created := acc.1.events_created + pr.1,
            redis_keys_deleted := acc.1.redis_keys_deleted + dr.1 },
         { cache := dr.2.1, neo := pr.2.1 },
         acc.2.2 ++ pr.2.2 ++ dr.2.2))
      ({ cameras_processed := groups.length, captions_found := expiring.length,
         events_created := 0, redis_keys_deleted := 0, errors := 0 }, world, [])

/-- The stats dict of migrate_camera_history: captions_processed,
events_created, redis_keys_deleted. -/
structure CameraStats where
  captions_processed : ℕ
  events_created : ℕ
  redis_keys_deleted : ℕ
deriving DecidableEq

/-- MigrationService.migrate_camera_history (migration_service.py
364-411): scan one camera with threshold REDIS_TTL_2HOUR when forced and
REDIS_MIGRATION_THRESHOLD otherwise, store the merged events, then delete
every scanned key unconditionally. -/
def migrateCameraHistory (cfg : MigCfg) (camera_id : String) (force : Bool)
    (world : World) : CameraStats × World × List DbCall :=
  let threshold := if force then REDIS_TTL_2HOUR else REDIS_MIGRATION_THRESHOLD
  let expiring := (getKeysNearExpiry (some camera_id) threshold world.cache).map toItem
  if expiring.isEmpty then
    ({ captions_processed := 0, events_created := 0, redis_keys_deleted := 0 }, world, [])
  else
    let pr := processCameraCaptions cfg camera_id expiring world.neo
    let dr := markForDeletion ((sortByTimestamp expiring).map (fun it => it.key)) world.cache
    ({ captions_processed := expiring.length, events_created := pr.1,
       redis_keys_deleted := dr.1 },
     { cache := dr.2.1, neo := pr.2.1 }, pr.2.2 ++ dr.2.2)

/-- The summary block of the preview endpoint. -/
structure PreviewSummary where
  captions_found : ℕ
  deduplicated_events : ℕ
  savings_percent : ℚ
deriving DecidableEq

/-- preview_camera_migration (endpoints/migration.py 167-242): scan the
camera with threshold 7200 (everything), sort, run the deduplication only,
and report original count, deduplicated count and the reduction
percentage; the no-data branch reports zeroes.  No write or delete call is
issued. -/
def previewCameraMigration (cfg : MigCfg) (camera_id : String) (world : World) :
    PreviewSummary × List DbCall :=
  let expiring := (getKeysNearExpiry (some camera_id) 7200 world.cache).map toItem
  if expiring.isEmpty then
    ({ captions_found := 0, deduplicated_events := 0, savings_percent := 0 }, [])
  else
    let grouped := deduplicateCaptions cfg (sortByTimestamp expiring)
    ({ captions_found := expiring.length
       deduplicated_events := grouped.length
       savings_percent :=
         ((expiring.length : ℚ) - (grouped.length : ℚ)) / (expiring.length : ℚ) * 100 }, [])

/-! ## Concrete scenarios used by counterexamples and witnesses -/

/-- A record of camera cam1 with an empty embedding (text-fallback
similarity). -/
def mkItem (k c : String) (t conf : ℚ) : CaptionItem :=
  { key := k, camera_id := "cam1", timestamp := t,
    data := { caption := c, confidence := conf, embedding := [] } }

/-- The parameters of the spec's reference scenario (section 8):
max_duration 300, min_duration 30, exact-text similarity (the records
carry no embeddings, so the threshold is not exercised). -/
def cfg4 : MigCfg :=
  { similarity_threshold := 0.85, min_duration := 30, max_duration := 300 }

/-- The reference scenario's five records at t = 0, 60, 120, 400, 460. -/
def caps4 : List CaptionItem :=
  [ mkItem "k0" "empty room" 0 0.9
  , mkItem "k1" "empty room" 60 0.9
  , mkItem "k2" "empty room" 120 0.9
  , mkItem "k3" "person enters" 400 0.9
  , mkItem "k4" "person enters" 460 0.9 ]

/-- A well-formed cache entry of camera cam1 with confidence 1 and no
embedding. -/
def mkEntry (k : String) (t : ℚ) (ttl : ℤ) (cap : String) : CacheEntry :=
  { key := k, camera_id := "cam1", timestamp := t, ttl := ttl, parseable := true,
    data := { caption := cap, confidence := 1, embedding := [] } }

/-- World for the C1 scenario: two near-expiry records of camera cam1, but
the Neo4j store has no cam1 Camera node, so every event write fails. -/
def worldC1 : World :=
  { cache := [mkEntry "meta:cam1:0" 0 100 "a", mkEntry "meta:cam1:60" 60 100 "a"]
    neo := { cameras := [], events := [], id_unique_constraint := true } }

/-- A merged event candidate used by the persist (C2) scenarios. -/
def grpC2 : CaptionGroup :=
  { caption := "a", confidence := 1, start_time := 0, end_time := 60,
    embedding := [], count := 2 }

/-- Fresh durable store holding the cam1 camera node, without the Event.id
uniqueness constraint: the state of a database on which initialize_schema
was never executed, as on the shipped startup path. -/
def neoNoConstraint : NeoState :=
  { cameras := ["cam1"], events := [], id_unique_constraint := false }

/-- The same store with the declared uniqueness constraint installed. -/
def neoWithConstraint : NeoState :=
  { cameras := ["cam1"], events := [], id_unique_constraint := true }

/-- World for the C7 scenario: two records of camera cam1 with 1000
seconds of TTL left - eligible for the preview scan (threshold 7200) but
not for a real, non-forced migration run (threshold 300). -/
def worldC7 : World :=
  { cache := [mkEntry "meta:cam1:0" 0 1000 "a", mkEntry "meta:cam1:60" 60 1000 "a"]
    neo := neoNoConstraint }

/-- A malformed cache entry near expiry: its metadata cannot be parsed. -/
def badEntry : CacheEntry :=
  { key := "meta:cam1:5", camera_id := "cam1", timestamp := 5, ttl := 100,
    parseable := false, data := { caption := "", confidence := 0, embedding := [] } }

/-- World for the C8 scenario: one well-formed and one malformed entry,
both within the migration threshold. -/
def worldC8 : World :=
  { cache := [mkEntry "meta:cam1:0" 0 100 "a", badEntry]
    neo := neoWithConstraint }

/-! ## Theorems: the SimilarityEngine -/

/-- The dot product is symmetric. -/
theorem dotQ_comm (a b : List ℚ) : dotQ a b = dotQ b a := by
  unfold dotQ
  rw [List.zipWith_comm_of_comm]
  intro x y
  exact mul_comm x y

/-- The cosine comparison is symmetric in the two vectors. -/
theorem cosGE_comm (e1 e2 : List ℚ) (t : ℚ) : cosGE e1 e2 t = cosGE e2 e1 t := by
  unfold cosGE
  rcases Decidable.em (dotQ e1 e1 = 0 ∨ dotQ e2 e2 = 0) with h | h
  · rw [if_pos h, if_pos (Or.symm h)]
  · rw [if_neg h, if_neg (fun hc => h (Or.symm hc))]
    congr 1
    rw [dotQ_comm e1 e2, mul_comm (dotQ e1 e1)]

/-- Helper: the similarity predicate is symmetric. -/
theorem areCaptionsSimilar_comm (thr : ℚ) (c1 c2 : String) (e1 e2 : List ℚ) :
    areCaptionsSimilar thr c1 c2 e1 e2 = areCaptionsSimilar thr c2 c1 e2 e1 := by
  unfold areCaptionsSimilar
  dsimp only
  by_cases hA : e1 ≠ [] ∧ e2 ≠ [] ∧ e1.length = e2.length
  · have hA' : e2 ≠ [] ∧ e1 ≠ [] ∧ e2.length = e1.length := ⟨hA.2.1, hA.1, hA.2.2.symm⟩
    simp only [if_pos hA, if_pos hA']
    exact cosGE_comm e1 e2 thr
  · have hA' : ¬(e2 ≠ [] ∧ e1 ≠ [] ∧ e2.length = e1.length) :=
      fun hc => hA ⟨hc.2.1, hc.1, hc.2.2.symm⟩
    simp only [if_neg hA, if_neg hA']
    by_cases hB : pyStrip (pyLower c1) = pyStrip (pyLower c2)
    · simp only [if_pos hB, if_pos hB.symm]
    · have hB' : ¬(pyStrip (pyLower c2) = pyStrip (pyLower c1)) := fun hc => hB hc.symm
      simp only [if_neg hB, if_neg hB']
      by_cases hW : pyTokens (pyStrip (pyLower c1)) = ∅ ∨ pyTokens (pyStrip (pyLower c2)) = ∅
      · simp only [if_pos hW, if_pos (Or.symm hW)]
      · have hW' : ¬(pyTokens (pyStrip (pyLower c2)) = ∅ ∨ pyTokens (pyStrip (pyLower c1)) = ∅) :=
          fun hc => hW (Or.symm hc)
        simp only [if_neg hW, if_neg hW']
        rw [Finset.inter_comm, max_comm]

/-- Helper: the implemented similarity predicate coincides with the
reference predicate of the spec for every threshold and every input; the
only textual difference, the explicit empty-token guard, is immaterial
because an empty intersection makes the ratio 0 < 0.8. -/
theorem areCaptionsSimilar_eq_specSimilar (thr : ℚ) (c1 c2 : String) (e1 e2 : List ℚ) :
    areCaptionsSimilar thr c1 c2 e1 e2 = specSimilar thr c1 c2 e1 e2 := by
  unfold areCaptionsSimilar specSimilar
  rcases Decidable.em (e1 ≠ [] ∧ e2 ≠ [] ∧ e1.length = e2.length) with h | h
  · rw [if_pos h, if_pos h]
  · rw [if_neg h, if_neg h]
    dsimp only
    rcases Decidable.em (pyStrip (pyLower c1) = pyStrip (pyLower c2)) with he | he
    · rw [if_pos he, if_pos he]
    · rw [if_neg he, if_neg he]
      rcases Decidable.em (pyTokens (pyStrip (pyLower c1)) = ∅ ∨
          pyTokens (pyStrip (pyLower c2)) = ∅) with hw | hw
      · rw [if_pos hw]
        have hz : ((pyTokens (pyStrip (pyLower c1)) ∩ pyTokens (pyStrip (pyLower c2))).card : ℚ) = 0 := by
          rcases hw with hw | hw
          · rw [hw, Finset.empty_inter]
            simp
          · rw [hw, Finset.inter_empty]
            simp
        rw [hz]
        symm
        rw [decide_eq_false_iff_not]
        intro hge
        rw [zero_div] at hge
        norm_num at hge
      · rw [if_neg hw]

/-- A dot product of a vector with itself is a sum of squares. -/
theorem dotQ_self_nonneg (a : List ℚ) : 0 ≤ dotQ a a := by
  unfold dotQ
  induction a with
  | nil => simp
  | cons x xs ih =>
    rw [List.zipWith_cons_cons, List.sum_cons]
    exact add_nonneg (mul_self_nonneg x) ih

/-- Justification of the rational encoding of the cosine test: for a
positive threshold and two vectors of nonzero norm, cosGE decides exactly
whether the real cosine similarity dot / (sqrt norm1 * sqrt norm2) reaches
the threshold. -/
theorem cosGE_models_cosine (e1 e2 : List ℚ) (t : ℚ) (ht : 0 < t)
    (h1 : dotQ e1 e1 ≠ 0) (h2 : dotQ e2 e2 ≠ 0) :
    (cosGE e1 e2 t = true ↔
      (t : ℝ) ≤ ((dotQ e1 e2 : ℚ) : ℝ) /
        (Real.sqrt ((dotQ e1 e1 : ℚ) : ℝ) * Real.sqrt ((dotQ e2 e2 : ℚ) : ℝ))) := by
  have hn1 : (0 : ℝ) < ((dotQ e1 e1 : ℚ) : ℝ) := by
    have hge : (0 : ℝ) ≤ ((dotQ e1 e1 : ℚ) : ℝ) := by exact_mod_cast dotQ_self_nonneg e1
    have hne : ((dotQ e1 e1 : ℚ) : ℝ) ≠ 0 := by exact_mod_cast h1
    exact lt_of_le_of_ne hge (Ne.symm hne)
  have hn2 : (0 : ℝ) < ((dotQ e2 e2 : ℚ) : ℝ) := by
    have hge : (0 : ℝ) ≤ ((dotQ e2 e2 : ℚ) : ℝ) := by exact_mod_cast dotQ_self_nonneg e2
    have hne : ((dotQ e2 e2 : ℚ) : ℝ) ≠ 0 := by exact_mod_cast h2
    exact lt_of_le_of_ne hge (Ne.symm hne)
  have hs1 : 0 < Real.sqrt ((dotQ e1 e1 : ℚ) : ℝ) := Real.sqrt_pos.mpr hn1
  have hs2 : 0 < Real.sqrt ((dotQ e2 e2 : ℚ) : ℝ) := Real.sqrt_pos.mpr hn2
  have hprod : 0 < Real.sqrt ((dotQ e1 e1 : ℚ) : ℝ) * Real.sqrt ((dotQ e2 e2 : ℚ) : ℝ) :=
    mul_pos hs1 hs2
  have htR : (0 : ℝ) < (t : ℝ) := by exact_mod_cast ht
  have hsquare : ((t : ℝ) * (Real.sqrt ((dotQ e1 e1 : ℚ) : ℝ) * Real.sqrt ((dotQ e2 e2 : ℚ) : ℝ))) ^ 2
      = (t : ℝ) ^ 2 * (((dotQ e1 e1 : ℚ) : ℝ) * ((dotQ e2 e2 : ℚ) : ℝ)) := by
    rw [mul_pow, mul_pow, Real.sq_sqrt hn1.le, Real.sq_sqrt hn2.le]
  unfold cosGE
  rw [if_neg (not_or.mpr ⟨h1, h2⟩)]
  simp only [decide_eq_true_eq]
  constructor
  · rintro ⟨hd0, hsq⟩
    have hd0R : (0 : ℝ) ≤ ((dotQ e1 e2 : ℚ) : ℝ) := by exact_mod_cast hd0
    have hsqR : (t : ℝ) ^ 2 * (((dotQ e1 e1 : ℚ) : ℝ) * ((dotQ e2 e2 : ℚ) : ℝ))
        ≤ ((dotQ e1 e2 : ℚ) : ℝ) ^ 2 := by exact_mod_cast hsq
    rw [le_div_iff₀ hprod]
    have hts : (0 : ℝ) ≤ (t : ℝ) * (Real.sqrt ((dotQ e1 e1 : ℚ) : ℝ) * Real.sqrt ((dotQ e2 e2 : ℚ) : ℝ)) :=
      le_of_lt (mul_pos htR hprod)
    calc (t : ℝ) * (Real.sqrt ((dotQ e1 e1 : ℚ) : ℝ) * Real.sqrt ((dotQ e2 e2 : ℚ) : ℝ))
        = Real.sqrt (((t : ℝ) * (Real.sqrt ((dotQ e1 e1 : ℚ) : ℝ) * Real.sqrt ((dotQ e2 e2 : ℚ) : ℝ))) ^ 2) :=
          (Real.sqrt_sq hts).symm
      _ ≤ Real.sqrt (((dotQ e1 e2 : ℚ) : ℝ) ^ 2) := by
          apply Real.sqrt_le_sqrt
          rw [hsquare]
          exact hsqR
      _ = ((dotQ e1 e2 : ℚ) : ℝ) := Real.sqrt_sq hd0R
  · intro hle
    rw [le_div_iff₀ hprod] at hle
    have hts : (0 : ℝ) < (t : ℝ) * (Real.sqrt ((dotQ e1 e1 : ℚ) : ℝ) * Real.sqrt ((dotQ e2 e2 : ℚ) : ℝ)) :=
      mul_pos htR hprod
    constructor
    · exact_mod_cast (hts.trans_le hle).le
    · have hp : ((t : ℝ) * (Real.sqrt ((dotQ e1 e1 : ℚ) : ℝ) * Real.sqrt ((dotQ e2 e2 : ℚ) : ℝ))) ^ 2
          ≤ ((dotQ e1 e2 : ℚ) : ℝ) ^ 2 := pow_le_pow_left₀ hts.le hle 2
      rw [hsquare] at hp
      exact_mod_cast hp

/-- C9 (confirmed).  The similarity predicate is symmetric: for every pair
of caption records - caption texts plus optional embeddings - and every
threshold, similar of a and b equals similar of b and a. -/
theorem c9_similarity_symmetric :
    ∀ (thr : ℚ) (c1 c2 : String) (e1 e2 : List ℚ),
      areCaptionsSimilar thr c1 c2 e1 e2 = areCaptionsSimilar thr c2 c1 e2 e1 :=
  areCaptionsSimilar_comm

/-- C5 (code bug in the default threshold).  The implemented similarity
predicate coincides with the spec's reference definition for every
threshold and input (embedding branch: cosine against the threshold;
fallback: lowercase and trim, exact match, token-overlap ratio against
0.8).  But the effective default threshold of the shipped service is 0.95,
not 0.85 as claimed: Settings defines CAPTION_SIMILARITY_THRESHOLD = 0.95,
so the getattr fallback 0.85 in MigrationService.__init__ is dead, even
though the service's own comment says 0.95 is too high. -/
theorem c5_similarity_spec_equal_but_threshold_095 :
    (∀ (thr : ℚ) (c1 c2 : String) (e1 e2 : List ℚ),
        areCaptionsSimilar thr c1 c2 e1 e2 = specSimilar thr c1 c2 e1 e2)
    ∧ migrationServiceCfg.similarity_threshold = 0.95
    ∧ decide ((0.95 : ℚ) = 0.85) = false := by
  refine ⟨areCaptionsSimilar_eq_specSimilar, rfl, ?_⟩
  with_unfolding_all decide

/-- C4 (confirmed).  On the reference scenario - one camera, records at
t = 0, 60, 120, 400, 460 with captions empty room (three times) then
person enters (twice), max_duration 300, min_duration 30, exact-text
similarity (no embeddings) - the grouping pass returns exactly two events:
start 0, end 120, three frames, caption empty room (duration 120); and
start 400, end 460, two frames, caption person enters (duration 60). -/
theorem c4_reference_scenario :
    deduplicateCaptions cfg4 caps4 =
      [ { caption := "empty room", confidence := 0.9, start_time := 0, end_time := 120,
          embedding := [], count := 3 },
        { caption := "person enters", confidence := 0.9, start_time := 400, end_time := 460,
          embedding := [], count := 2 } ]
    ∧ (120 : ℚ) - 0 = 120 ∧ (460 : ℚ) - 400 = 60 := by
  refine ⟨?_, ?_, ?_⟩ <;> with_unfolding_all decide

/-! ## Theorems: the grouping pass summarises runs -/

/-- A one-record run summarises to the group the code starts from that
record. -/
theorem summarize_single (c : CaptionItem) : summarize ⟨c, []⟩ = startGroup c := by
  unfold summarize startGroup Run.toList
  simp

/-- Extending the summary of a run is summarising the extended run: the
code's incremental mean, end-time update and count increment agree with
the arithmetic mean, last timestamp and length of the run with the new
record appended. -/
theorem extendGroup_summarize (r : Run) (item : CaptionItem) :
    extendGroup (summarize r) item.data item.timestamp
      = summarize ⟨r.opener, r.rest ++ [item]⟩ := by
  have hne : ((r.rest.length : ℚ) + 1) ≠ 0 := by positivity
  unfold extendGroup summarize Run.toList
  simp only [CaptionGroup.mk.injEq]
  refine ⟨trivial, ?_, trivial, ?_, trivial, ?_⟩
  · rw [List.map_cons, List.map_cons, List.map_append, List.map_singleton]
    rw [List.sum_cons, List.sum_cons, List.sum_append, List.sum_singleton]
    rw [List.length_append, List.length_singleton]
    push_cast
    field_simp
    ring
  · rw [List.getLast?_concat]
    rfl
  · rw [List.length_append, List.length_singleton]
  
/-- One loop iteration corresponds at run level: starting from the
summary-and-filter image of a run state, the code's step lands on the
summary-and-filter image of the stepped run state.  The similarity test
the code runs on the current group is, through the summary, exactly the
test against the run's opener. -/
theorem dedupStep_runStep (cfg : MigCfg) (done : List Run) (r : Run) (item : CaptionItem) :
    dedupStep cfg ((done.map summarize).filter (shouldSave cfg), summarize r) item
      = (((runStep cfg (done, r) item).1.map summarize).filter (shouldSave cfg),
         summarize (runStep cfg (done, r) item).2) := by
  have hcond : (areCaptionsSimilar cfg.similarity_threshold (summarize r).caption
        item.data.caption (summarize r).embedding item.data.embedding
      ∧ item.timestamp - (summarize r).start_time ≤ cfg.max_duration)
      ↔ itemExtends cfg r.opener item = true := by
    unfold itemExtends summarize
    rw [Bool.and_eq_true, decide_eq_true_eq]
  unfold dedupStep runStep
  dsimp only
  cases h : itemExtends cfg r.opener item with
  | true =>
    rw [if_pos (hcond.mpr h), if_pos rfl]
    rw [extendGroup_summarize]
  | false =>
    have hn : ¬(areCaptionsSimilar cfg.similarity_threshold (summarize r).caption
        item.data.caption (summarize r).embedding item.data.embedding
      ∧ item.timestamp - (summarize r).start_time ≤ cfg.max_duration) :=
      fun hc => Bool.false_ne_true (h ▸ hcond.mp hc)
    rw [if_neg hn, if_neg Bool.false_ne_true]
    rw [summarize_single]
    simp only [List.map_append, List.filter_append, List.map_singleton]
    cases hS : shouldSave cfg (summarize r) with
    | true => simp [hS]
    | false => simp [hS]

/-- Fold-level correspondence between the code's pass and the run pass. -/
theorem foldl_dedup_runStep (cfg : MigCfg) (items : List CaptionItem) :
    ∀ (done : List Run) (r : Run),
      items.foldl (dedupStep cfg) ((done.map summarize).filter (shouldSave cfg), summarize r)
        = ((((items.foldl (runStep cfg) (done, r)).1).map summarize).filter (shouldSave cfg),
           summarize (items.foldl (runStep cfg) (done, r)).2) := by
  induction items with
  | nil => intro done r; rfl
  | cons x xs ih =>
    intro done r
    rw [List.foldl_cons, List.foldl_cons, dedupStep_runStep]
    exact ih (runStep cfg (done, r) x).1 (runStep cfg (done, r) x).2

/-- The grouping pass is exactly: partition the input into runs, summarise
each run, and keep the summaries passing the save filter - the final run
passes through the same filter as the interior ones. -/
theorem dedup_eq_groupRuns (cfg : MigCfg) (caps : List CaptionItem) :
    deduplicateCaptions cfg caps
      = ((groupRuns cfg caps).map summarize).filter (shouldSave cfg) := by
  cases caps with
  | nil => rfl
  | cons c rest =>
    unfold deduplicateCaptions groupRuns
    dsimp only
    have h := foldl_dedup_runStep cfg rest [] ⟨c, []⟩
    have h0 : ((([] : List Run).map summarize).filter (shouldSave cfg)) = [] := rfl
    rw [h0, summarize_single] at h
    rw [h]
    rw [List.map_append, List.filter_append, List.map_singleton]
    cases hS : shouldSave cfg (summarize (rest.foldl (runStep cfg) ([], ⟨c, []⟩)).2) with
    | true => simp [hS]
    | false => simp [hS]

/-- Unfolding equation of runStep on an explicit pair. -/
theorem runStep_eq (cfg : MigCfg) (done : List Run) (r : Run) (item : CaptionItem) :
    runStep cfg (done, r) item
      = if itemExtends cfg r.opener item then (done, ⟨r.opener, r.rest ++ [item]⟩)
        else (done ++ [r], ⟨item, []⟩) := rfl

/-- The run partition conserves the records: flattening the runs of the
pass gives back the input list. -/
theorem runStep_flatten (cfg : MigCfg) (items : List CaptionItem) :
    ∀ (done : List Run) (r : Run),
      ((items.foldl (runStep cfg) (done, r)).1.map Run.toList).flatten
          ++ (items.foldl (runStep cfg) (done, r)).2.toList
        = (done.map Run.toList).flatten ++ r.toList ++ items := by
  induction items with
  | nil => intro done r; simp
  | cons x xs ih =>
    intro done r
    rw [List.foldl_cons, runStep_eq]
    cases h : itemExtends cfg r.opener x with
    | true =>
      rw [if_pos rfl]
      rw [ih done ⟨r.opener, r.rest ++ [x]⟩]
      unfold Run.toList
      simp
    | false =>
      rw [if_neg Bool.false_ne_true]
      rw [ih (done ++ [r]) ⟨x, []⟩]
      unfold Run.toList
      simp

/-- Flattening the run partition of the input gives back the input: every
record belongs to exactly one run, in order. -/
theorem groupRuns_flatten (cfg : MigCfg) (caps : List CaptionItem) :
    ((groupRuns cfg caps).map Run.toList).flatten = caps := by
  cases caps with
  | nil => rfl
  | cons c rest =>
    unfold groupRuns
    dsimp only
    have h := runStep_flatten cfg rest [] ⟨c, []⟩
    rw [List.map_append, List.flatten_append, List.map_singleton]
    simp only [List.map_nil, List.flatten_nil, List.nil_append] at h
    simp only [List.flatten_cons, List.flatten_nil, List.append_nil]
    rw [h]
    rfl

/-- Every non-opener member of a run was admitted by the extension test
against that run's opener. -/
theorem runStep_members (cfg : MigCfg) (items : List CaptionItem) :
    ∀ (done : List Run) (r : Run),
      (∀ q ∈ done, ∀ it ∈ q.rest, itemExtends cfg q.opener it = true) →
      (∀ it ∈ r.rest, itemExtends cfg r.opener it = true) →
      (∀ q ∈ (items.foldl (runStep cfg) (done, r)).1, ∀ it ∈ q.rest,
          itemExtends cfg q.opener it = true)
      ∧ (∀ it ∈ (items.foldl (runStep cfg) (done, r)).2.rest,
          itemExtends cfg (items.foldl (runStep cfg) (done, r)).2.opener it = true) := by
  induction items with
  | nil => intro done r hd hr; exact ⟨hd, hr⟩
  | cons x xs ih =>
    intro done r hd hr
    rw [List.foldl_cons, runStep_eq]
    cases h : itemExtends cfg r.opener x with
    | true =>
      rw [if_pos rfl]
      apply ih
      · exact hd
      · intro it hit
        rcases List.mem_append.mp hit with hmem | hmem
        · exact hr it hmem
        · rw [List.mem_singleton.mp hmem]
          exact h
    | false =>
      rw [if_neg Bool.false_ne_true]
      apply ih
      · intro q hq it hit
        rcases List.mem_append.mp hq with hmem | hmem
        · exact hd q hmem it hit
        · have hqr : q = r := List.mem_singleton.mp hmem
          subst hqr
          exact hr it hit
      · intro it hit
        simp at hit
    
/-- Corollary of runStep_members for the whole pass. -/
theorem groupRuns_members (cfg : MigCfg) (caps : List CaptionItem) :
    ∀ q ∈ groupRuns cfg caps, ∀ it ∈ q.rest, itemExtends cfg q.opener it = true := by
  cases caps with
  | nil =>
    intro q hq
    simp [groupRuns] at hq
  | cons c rest =>
    intro q hq it hit
    unfold groupRuns at hq
    dsimp only at hq
    have h := runStep_members cfg rest [] ⟨c, []⟩
      (by intro q hq; simp at hq) (by intro it hit; simp at hit)
    rcases List.mem_append.mp hq with hmem | hmem
    · exact h.1 q hmem it hit
    · have hqe : q = (rest.foldl (runStep cfg) ([], ⟨c, []⟩)).2 := List.mem_singleton.mp hmem
      subst hqe
      exact h.2 it hit

/-- The openers of a list of runs form a sublist of the flattened runs. -/
theorem openers_sublist (rs : List Run) :
    (rs.map (fun q => q.opener)).Sublist ((rs.map Run.toList).flatten) := by
  induction rs with
  | nil => simp
  | cons q qs ih =>
    simp only [List.map_cons, List.flatten_cons, Run.toList, List.cons_append]
    exact List.Sublist.cons₂ _ (ih.trans (List.sublist_append_right _ _))

/-- Each run of the partition is a contiguous infix of the input. -/
theorem run_contiguous_in_input (cfg : MigCfg) (caps : List CaptionItem) (q : Run)
    (hq : q ∈ groupRuns cfg caps) : q.toList.IsInfix caps := by
  obtain ⟨a, b, hab⟩ := List.append_of_mem hq
  have hjoin := groupRuns_flatten cfg caps
  rw [hab] at hjoin
  rw [List.map_append, List.flatten_append, List.map_cons, List.flatten_cons] at hjoin
  exact ⟨(a.map Run.toList).flatten, (b.map Run.toList).flatten,
    by rw [← hjoin]; simp [List.append_assoc]⟩

/-- C3 counterexample.  A run whose final (and only) group is a singleton
of duration 0 < min_duration returns the empty event list under the
shipped configuration: the last group does NOT always appear in the
output, contradicting the claim on this non-empty input. -/
theorem c3_final_singleton_dropped :
    ([mkItem "k0" "a" 0 1] : List CaptionItem).length = 1
    ∧ deduplicateCaptions migrationServiceCfg [mkItem "k0" "a" 0 1] = [] := by
  constructor
  · rfl
  · with_unfolding_all decide

/-- C3 as amended (the final group goes through the same save filter as
interior groups).  For every non-empty input the pass produces a non-empty
run partition, and the returned events are exactly the run summaries -
final run included - that satisfy the save filter count > 1 or duration >=
min_duration; in particular a final singleton below min_duration is
dropped exactly like an interior one. -/
theorem c3_final_group_same_filter (cfg : MigCfg) (caps : List CaptionItem)
    (h : caps ≠ []) :
    groupRuns cfg caps ≠ []
    ∧ deduplicateCaptions cfg caps
        = ((groupRuns cfg caps).map summarize).filter (shouldSave cfg) := by
  constructor
  · cases caps with
    | nil => exact absurd rfl h
    | cons c rest =>
      unfold groupRuns
      dsimp only
      intro hc
      have := congrArg List.length hc
      simp at this
  · exact dedup_eq_groupRuns cfg caps

/-- Witness for c3_final_group_same_filter at the one-record input. -/
theorem c3_witness :
    deduplicateCaptions migrationServiceCfg [mkItem "k1" "b" 0 1]
      = ((groupRuns migrationServiceCfg [mkItem "k1" "b" 0 1]).map summarize).filter
          (shouldSave migrationServiceCfg) :=
  (c3_final_group_same_filter migrationServiceCfg [mkItem "k1" "b" 0 1] (by simp)).2

/-- C6 (confirmed).  Group extension happens exactly when the candidate is
similar to the group's opening caption/embedding and lies within
max_duration of the group's start (first conjunct, for any group the loop
can hold, i.e. count >= 1); extension never changes the opening caption,
embedding or start time (second conjunct); consequently, for a
timestamp-sorted input and a nonnegative max_duration, every produced
event spans forward in time and by at most max_duration (third
conjunct). -/
theorem c6_group_extension_invariant (cfg : MigCfg) (caps : List CaptionItem)
    (hmax : 0 ≤ cfg.max_duration)
    (hsort : caps.Sorted (fun a b => a.timestamp ≤ b.timestamp)) :
    (∀ (evts : List CaptionGroup) (g : CaptionGroup) (item : CaptionItem), 1 ≤ g.count →
        (dedupStep cfg (evts, g) item = (evts, extendGroup g item.data item.timestamp)
          ↔ (areCaptionsSimilar cfg.similarity_threshold g.caption item.data.caption
                g.embedding item.data.embedding = true
              ∧ item.timestamp - g.start_time ≤ cfg.max_duration)))
    ∧ (∀ (g : CaptionGroup) (d : CaptionData) (ts : ℚ),
        (extendGroup g d ts).caption = g.caption
        ∧ (extendGroup g d ts).embedding = g.embedding
        ∧ (extendGroup g d ts).start_time = g.start_time)
    ∧ (∀ e ∈ deduplicateCaptions cfg caps,
        e.start_time ≤ e.end_time ∧ e.end_time - e.start_time ≤ cfg.max_duration) := by
  refine ⟨?_, ?_, ?_⟩
  · intro evts g item hcount
    unfold dedupStep
    dsimp only
    by_cases hc : areCaptionsSimilar cfg.similarity_threshold g.caption item.data.caption
        g.embedding item.data.embedding = true
      ∧ item.timestamp - g.start_time ≤ cfg.max_duration
    · rw [if_pos hc]
      exact iff_of_true rfl hc
    · rw [if_neg hc]
      refine iff_of_false ?_ hc
      intro heq
      have hsnd := congrArg (fun p => p.2.count) heq
      simp only [startGroup, extendGroup] at hsnd
      omega
  · intro g d ts
    exact ⟨rfl, rfl, rfl⟩
  · intro e he
    rw [dedup_eq_groupRuns] at he
    obtain ⟨q, hq, rfl⟩ := List.mem_map.mp (List.mem_filter.mp he).1
    have hsorted_run : q.toList.Sorted (fun a b => a.timestamp ≤ b.timestamp) :=
      List.Pairwise.sublist (run_contiguous_in_input cfg caps q hq).sublist hsort
    have hopener : ∀ it ∈ q.rest, q.opener.timestamp ≤ it.timestamp := by
      have := List.pairwise_cons.mp hsorted_run
      exact this.1
    cases hrest : q.rest with
    | nil =>
      constructor
      · simp [summarize, hrest]
      · simp only [summarize, hrest, List.getLast?_nil, Option.getD_none]
        simpa using hmax
    | cons y ys =>
      obtain ⟨lst, hlst⟩ : ∃ a, q.rest.getLast? = some a := by
        rw [hrest]
        exact ⟨(y :: ys).getLast (List.cons_ne_nil y ys),
          List.getLast?_eq_getLast (y :: ys) (List.cons_ne_nil y ys)⟩
      have hmem : lst ∈ q.rest := List.mem_of_getLast?_eq_some hlst
      have htest := groupRuns_members cfg caps q hq lst hmem
      unfold itemExtends at htest
      rw [Bool.and_eq_true, decide_eq_true_eq] at htest
      constructor
      · simp only [summarize, hlst, Option.getD_some]
        exact hopener lst hmem
      · simp only [summarize, hlst, Option.getD_some]
        exact htest.2

/-- Witness for c6_group_extension_invariant on the reference scenario:
both produced events span forward by at most max_duration. -/
theorem c6_witness :
    ({ caption := "empty room", confidence := 0.9, start_time := 0, end_time := 120,
       embedding := [], count := 3 } : CaptionGroup).start_time
        ≤ ({ caption := "empty room", confidence := 0.9, start_time := 0, end_time := 120,
             embedding := [], count := 3 } : CaptionGroup).end_time
    ∧ ({ caption := "empty room", confidence := 0.9, start_time := 0, end_time := 120,
         embedding := [], count := 3 } : CaptionGroup).end_time
        - ({ caption := "empty room", confidence := 0.9, start_time := 0, end_time := 120,
             embedding := [], count := 3 } : CaptionGroup).start_time ≤ cfg4.max_duration :=
  (c6_group_extension_invariant cfg4 caps4 (by norm_num [cfg4])
      (by norm_num [caps4, mkItem, List.Sorted, List.pairwise_cons])).2.2
    { caption := "empty room", confidence := 0.9, start_time := 0, end_time := 120,
      embedding := [], count := 3 }
    (by with_unfolding_all decide)

/-- C10 (confirmed).  For a (timestamp-sorted, as every call site ensures)
input: the run partition flattens back to the input, so each record is
folded into exactly one group; the counts of all flushed groups - saved
and filter-dropped alike - sum to the input length; each group's
confidence is the arithmetic mean of its members' confidences and its
count is its member count; the output is the save-filtered list of the
group summaries; and the returned events carry non-decreasing start
times. -/
theorem c10_conservation_mean_order (cfg : MigCfg) (caps : List CaptionItem)
    (hsort : caps.Sorted (fun a b => a.timestamp ≤ b.timestamp)) :
    ((groupRuns cfg caps).map Run.toList).flatten = caps
    ∧ ((groupRuns cfg caps).map (fun q => (summarize q).count)).sum = caps.length
    ∧ (∀ q ∈ groupRuns cfg caps,
        (summarize q).confidence
            = (q.toList.map (fun it => it.data.confidence)).sum / (q.toList.length : ℚ)
          ∧ (summarize q).count = q.toList.length)
    ∧ deduplicateCaptions cfg caps
        = ((groupRuns cfg caps).map summarize).filter (shouldSave cfg)
    ∧ ((deduplicateCaptions cfg caps).map (fun e => e.start_time)).Sorted (· ≤ ·) := by
  refine ⟨groupRuns_flatten cfg caps, ?_, ?_, dedup_eq_groupRuns cfg caps, ?_⟩
  · have hcong : ((groupRuns cfg caps).map (fun q => (summarize q).count))
        = ((groupRuns cfg caps).map (fun q => q.toList.length)) := by
      apply List.map_congr_left
      intro q _
      simp [summarize, Run.toList]
    rw [hcong]
    calc ((groupRuns cfg caps).map (fun q => q.toList.length)).sum
        = (((groupRuns cfg caps).map Run.toList).map List.length).sum := by
          rw [List.map_map]
          rfl
      _ = ((groupRuns cfg caps).map Run.toList).flatten.length :=
          (List.length_flatten _).symm
      _ = caps.length := by rw [groupRuns_flatten]
  · intro q _
    constructor
    · simp only [summarize, Run.toList, List.length_cons]
      push_cast
      ring_nf
    · simp [summarize, Run.toList]
  · have hsub : (deduplicateCaptions cfg caps).Sublist
        ((groupRuns cfg caps).map summarize) := by
      rw [dedup_eq_groupRuns]
      exact List.filter_sublist _
    have hmapsub : ((deduplicateCaptions cfg caps).map (fun e => e.start_time)).Sublist
        (((groupRuns cfg caps).map summarize).map (fun e => e.start_time)) :=
      hsub.map (fun e => e.start_time)
    have hop : (((groupRuns cfg caps).map summarize).map (fun e => e.start_time))
        = (((groupRuns cfg caps).map (fun q => q.opener)).map (fun it => it.timestamp)) := by
      rw [List.map_map, List.map_map]
      rfl
    have hopeners : ((groupRuns cfg caps).map (fun q => q.opener)).Sublist caps := by
      have h := openers_sublist (groupRuns cfg caps)
      rwa [groupRuns_flatten] at h
    have hsorted_op : ((groupRuns cfg caps).map (fun q => q.opener)).Sorted
        (fun a b => a.timestamp ≤ b.timestamp) :=
      List.Pairwise.sublist hopeners hsort
    have hsorted_ts : (((groupRuns cfg caps).map (fun q => q.opener)).map
        (fun it => it.timestamp)).Sorted (· ≤ ·) := by
      rw [List.Sorted, List.pairwise_map]
      exact hsorted_op
    rw [hop] at hmapsub
    exact List.Pairwise.sublist hmapsub hsorted_ts

/-- Witness for c10_conservation_mean_order on the reference scenario. -/
theorem c10_witness :
    ((groupRuns cfg4 caps4).map Run.toList).flatten = caps4
    ∧ ((groupRuns cfg4 caps4).map (fun q => (summarize q).count)).sum = caps4.length
    ∧ deduplicateCaptions cfg4 caps4
        = ((groupRuns cfg4 caps4).map summarize).filter (shouldSave cfg4) := by
  have h := c10_conservation_mean_order cfg4 caps4
    (by norm_num [caps4, mkItem, List.Sorted, List.pairwise_cons])
  exact ⟨h.1, h.2.1, h.2.2.2.1⟩

/-! ## Theorems: the durable writer and the orchestration methods -/

/-- If the camera node is absent, the write fails and leaves the store
unchanged. -/
theorem storeEvent_noCamera (camera : String) (g : CaptionGroup) (neo : NeoState)
    (hcam : camera ∉ neo.cameras) :
    storeEventInNeo4j camera g neo
      = (false, neo, [DbCall.write camera (eventIdFor camera g.start_time)]) := by
  unfold storeEventInNeo4j
  rw [if_neg hcam]

/-- Without the uniqueness constraint, a CREATE against an existing camera
always succeeds and appends one row (even a duplicate id). -/
theorem storeEvent_noConstraint (camera : String) (g : CaptionGroup) (neo : NeoState)
    (hcam : camera ∈ neo.cameras) (hcon : neo.id_unique_constraint = false) :
    storeEventInNeo4j camera g neo
      = (true, { neo with events := neo.events ++ [mkNeoEvent camera g] },
         [DbCall.write camera (eventIdFor camera g.start_time)]) := by
  unfold storeEventInNeo4j
  rw [if_pos hcam, hcon, Bool.false_and, if_neg Bool.false_ne_true]

/-- With the constraint and a fresh id, the write succeeds and appends the
row. -/
theorem storeEvent_fresh (camera : String) (g : CaptionGroup) (neo : NeoState)
    (hcam : camera ∈ neo.cameras)
    (hany : neo.events.any (fun e => decide (e.id = eventIdFor camera g.start_time)) = false) :
    storeEventInNeo4j camera g neo
      = (true, { neo with events := neo.events ++ [mkNeoEvent camera g] },
         [DbCall.write camera (eventIdFor camera g.start_time)]) := by
  unfold storeEventInNeo4j
  rw [if_pos hcam, hany, Bool.and_false, if_neg Bool.false_ne_true]

/-- With the constraint installed and a row with the same id present, the
CREATE is rejected and the store is unchanged. -/
theorem storeEvent_dup (camera : String) (g : CaptionGroup) (neo : NeoState)
    (hcam : camera ∈ neo.cameras) (hcon : neo.id_unique_constraint = true)
    (hany : neo.events.any (fun e => decide (e.id = eventIdFor camera g.start_time)) = true) :
    storeEventInNeo4j camera g neo
      = (false, neo, [DbCall.write camera (eventIdFor camera g.start_time)]) := by
  unfold storeEventInNeo4j
  rw [if_pos hcam, hcon, hany, Bool.and_self, if_pos rfl]

/-- C2 counterexample.  On a store without the Event.id uniqueness
constraint - the state of a fresh database under the shipped startup path,
which never runs initialize_schema - applying the persist twice with the
same MergedEvent leaves TWO durable records with that id, not one: the
query is a plain CREATE, not an upsert. -/
theorem c2_create_duplicates_counterexample :
    ((storeEventInNeo4j "cam1" grpC2
        (storeEventInNeo4j "cam1" grpC2 neoNoConstraint).2.1).2.1.events.filter
      (fun e => decide (e.id = eventIdFor "cam1" grpC2.start_time))).length = 2 := by
  with_unfolding_all decide

/-- C2 as amended.  The event id is computed deterministically from the
camera id and the start time truncated to the second (first conjunct).
The persist is not an upsert: repeated application yields exactly one
durable record only when the declared Event.id uniqueness constraint is
installed in the database, in which case the second call is rejected and
leaves the store unchanged - first write wins, and exactly one record with
that id remains (second conjunct). -/
theorem c2_deterministic_id_and_constrained_once :
    (∀ (camera : String) (s1 s2 : ℚ), pyInt s1 = pyInt s2 →
        eventIdFor camera s1 = eventIdFor camera s2)
    ∧ ∀ (camera : String) (g : CaptionGroup) (neo : NeoState),
        neo.id_unique_constraint = true →
        camera ∈ neo.cameras →
        (∀ e ∈ neo.events, e.id ≠ eventIdFor camera g.start_time) →
        (storeEventInNeo4j camera g neo).1 = true
        ∧ (storeEventInNeo4j camera g (storeEventInNeo4j camera g neo).2.1).2.1
            = (storeEventInNeo4j camera g neo).2.1
        ∧ ((storeEventInNeo4j camera g
              (storeEventInNeo4j camera g neo).2.1).2.1.events.filter
            (fun e => decide (e.id = eventIdFor camera g.start_time))).length = 1 := by
  constructor
  · intro camera s1 s2 h
    unfold eventIdFor
    rw [h]
  · intro camera g neo hcon hcam hfresh
    have hany : (neo.events.any (fun e => decide (e.id = eventIdFor camera g.start_time))) = false := by
      rw [List.any_eq_false]
      intro e he
      simpa using hfresh e he
    have h1 := storeEvent_fresh camera g neo hcam hany
    have hcam1 : camera ∈ (storeEventInNeo4j camera g neo).2.1.cameras := by
      rw [h1]
      exact hcam
    have hcon1 : (storeEventInNeo4j camera g neo).2.1.id_unique_constraint = true := by
      rw [h1]
      exact hcon
    have hany1 : ((storeEventInNeo4j camera g neo).2.1.events.any
        (fun e => decide (e.id = eventIdFor camera g.start_time))) = true := by
      rw [h1]
      rw [List.any_eq_true]
      exact ⟨mkNeoEvent camera g, by simp, by simp [mkNeoEvent]⟩
    have h2 := storeEvent_dup camera g (storeEventInNeo4j camera g neo).2.1 hcam1 hcon1 hany1
    refine ⟨by rw [h1], by rw [h2], ?_⟩
    rw [h2, h1]
    dsimp only
    rw [List.filter_append]
    have hfilter : neo.events.filter (fun e => decide (e.id = eventIdFor camera g.start_time)) = [] := by
      rw [List.filter_eq_nil_iff]
      intro e he
      simpa using hfresh e he
    rw [hfilter]
    simp [mkNeoEvent]

/-- Witness for c2_deterministic_id_and_constrained_once: on a
constraint-enforcing store holding the cam1 camera node and no events, the
double persist leaves exactly one record. -/
theorem c2_witness :
    (storeEventInNeo4j "cam1" grpC2 neoWithConstraint).1 = true
    ∧ (storeEventInNeo4j "cam1" grpC2
          (storeEventInNeo4j "cam1" grpC2 neoWithConstraint).2.1).2.1
        = (storeEventInNeo4j "cam1" grpC2 neoWithConstraint).2.1
    ∧ ((storeEventInNeo4j "cam1" grpC2
          (storeEventInNeo4j "cam1" grpC2 neoWithConstraint).2.1).2.1.events.filter
        (fun e => decide (e.id = eventIdFor "cam1" grpC2.start_time))).length = 1 :=
  c2_deterministic_id_and_constrained_once.2 "cam1" grpC2 neoWithConstraint rfl
    (by decide) (by intro e he; simp [neoWithConstraint] at he)

/-- C1 (code bug).  With two near-expiry records of camera cam1 whose
durable writes fail (the cam1 Camera node is absent from Neo4j, so
_store_event_in_neo4j returns False), run_migration_check nevertheless
passes BOTH caption keys to the cache deletion call and the cache entries
are removed while the durable store holds nothing: the deletion is not
conditioned on the write result, contradicting both the claim and
mark_for_deletion's own docstring (deletion after successful
migration). -/
theorem c1_keys_deleted_despite_failed_write :
    (runMigrationCheck migrationServiceCfg worldC1).1.events_created = 0
    ∧ (runMigrationCheck migrationServiceCfg worldC1).2.1.neo.events = []
    ∧ (runMigrationCheck migrationServiceCfg worldC1).2.1.cache = []
    ∧ DbCall.delete ["meta:cam1:0", "meta:cam1:60"]
        ∈ (runMigrationCheck migrationServiceCfg worldC1).2.2 := by
  refine ⟨?_, ?_, ?_, ?_⟩ <;> with_unfolding_all decide

/-- Storing a list of groups against an existing camera on an
unconstrained store succeeds for every group: the success counter advances
by the number of groups. -/
theorem foldStore_count (camera : String) (gs : List CaptionGroup) :
    ∀ (n : ℕ) (neo : NeoState) (tr : List DbCall),
      camera ∈ neo.cameras → neo.id_unique_constraint = false →
      (gs.foldl
        (fun acc g =>
          let r := storeEventInNeo4j camera g acc.2.1
          ((if r.1 then acc.1 + 1 else acc.1), r.2.1, acc.2.2 ++ r.2.2))
        (n, neo, tr)).1 = n + gs.length := by
  induction gs with
  | nil =>
    intro n neo tr _ _
    simp
  | cons g gs ih =>
    intro n neo tr hcam hcon
    rw [List.foldl_cons]
    dsimp only
    rw [storeEvent_noConstraint camera g neo hcam hcon]
    refine Eq.trans (ih (n + 1) _ _ hcam hcon) ?_
    simp [List.length_cons]
    omega

/-- On an unconstrained store holding the camera node, the real migration
pipeline creates exactly one durable event per deduplicated group. -/
theorem processCameraCaptions_count (cfg : MigCfg) (camera : String)
    (items : List CaptionItem) (neo : NeoState)
    (hcam : camera ∈ neo.cameras) (hcon : neo.id_unique_constraint = false) :
    (processCameraCaptions cfg camera items neo).1
      = (deduplicateCaptions cfg (sortByTimestamp items)).length := by
  unfold processCameraCaptions
  by_cases h : items.isEmpty
  · rw [if_pos h]
    have hnil : items = [] := List.isEmpty_iff.mp h
    subst hnil
    rfl
  · rw [if_neg h]
    dsimp only
    rw [foldStore_count camera _ 0 neo [] hcam hcon]
    exact Nat.zero_add _

/-- C7 counterexample.  With two cam1 records at 1000 seconds of remaining
TTL, the preview (which scans with threshold 7200) reports one merged
event, but a subsequent real, non-forced migration run of the same camera
(threshold REDIS_MIGRATION_THRESHOLD = 300) finds no eligible keys and
creates zero events - the projected count does not match the real run,
with no intervening writes. -/
theorem c7_preview_vs_real_run_counterexample :
    (previewCameraMigration migrationServiceCfg "cam1" worldC7).1.deduplicated_events = 1
    ∧ (migrateCameraHistory migrationServiceCfg "cam1" false worldC7).1.events_created = 0 := by
  constructor <;> with_unfolding_all decide

/-- C7 as amended.  The preview issues no durable-store write call and no
cache delete call, and reports the reduction percentage
(captions_found - events) / captions_found * 100 (the no-data branch
reports zeroes, for which the formula also gives 0).  Its event count
equals what a subsequent FORCED run (which scans with the same 7200
threshold) would create when every write succeeds - camera node present,
no uniqueness-constraint rejection; a non-forced run scans with threshold
300 and can see fewer keys. -/
theorem c7_preview_nondestructive_amended (cfg : MigCfg) (camera : String) (world : World) :
    (previewCameraMigration cfg camera world).2 = []
    ∧ (previewCameraMigration cfg camera world).1.savings_percent
        = (((previewCameraMigration cfg camera world).1.captions_found : ℚ)
            - ((previewCameraMigration cfg camera world).1.deduplicated_events : ℚ))
          / ((previewCameraMigration cfg camera world).1.captions_found : ℚ) * 100
    ∧ (camera ∈ world.neo.cameras → world.neo.id_unique_constraint = false →
        (previewCameraMigration cfg camera world).1.deduplicated_events
          = (migrateCameraHistory cfg camera true world).1.events_created) := by
  unfold previewCameraMigration
  dsimp only
  by_cases h : ((getKeysNearExpiry (some camera) 7200 world.cache).map toItem).isEmpty
  · rw [if_pos h]
    refine ⟨rfl, ?_, ?_⟩
    · norm_num
    · intro hcam hcon
      unfold migrateCameraHistory
      dsimp only
      rw [show (if true = true then REDIS_TTL_2HOUR else REDIS_MIGRATION_THRESHOLD) = (7200 : ℤ) from rfl]
      rw [if_pos h]
  · rw [if_neg h]
    refine ⟨rfl, rfl, ?_⟩
    intro hcam hcon
    unfold migrateCameraHistory
    dsimp only
    rw [show (if true = true then REDIS_TTL_2HOUR else REDIS_MIGRATION_THRESHOLD) = (7200 : ℤ) from rfl]
    rw [if_neg h]
    dsimp only
    rw [processCameraCaptions_count cfg camera _ world.neo hcam hcon]

/-- Witness for c7_preview_nondestructive_amended: on worldC7 the preview
count matches the forced run's created events. -/
theorem c7_witness :
    (previewCameraMigration migrationServiceCfg "cam1" worldC7).1.deduplicated_events
      = (migrateCameraHistory migrationServiceCfg "cam1" true worldC7).1.events_created :=
  (c7_preview_nondestructive_amended migrationServiceCfg "cam1" worldC7).2.2
    (by decide) rfl

/-- The per-camera fold of run_migration_check never touches the errors
counter: only the exception handlers increment it, and this deterministic
model raises none. -/
theorem runFold_errors (cfg : MigCfg) (groups : List (String × List CaptionItem)) :
    ∀ st : RunStats × World × List DbCall,
      (groups.foldl
        (fun acc cg =>
          let pr := processCameraCaptions cfg cg.1 cg.2 acc.2.1.neo
          let dr := markForDeletion ((sortByTimestamp cg.2).map (fun it => it.key)) acc.2.1.cache
          ({ acc.1 with
              events_created := acc.1.events_created + pr.1,
              redis_keys_deleted := acc.1.redis_keys_deleted + dr.1 },
           { cache := dr.2.1, neo := pr.2.1 },
           acc.2.2 ++ pr.2.2 ++ dr.2.2)) st).1.errors = st.1.errors := by
  induction groups with
  | nil => intro st; rfl
  | cons gp gps ih =>
    intro st
    rw [List.foldl_cons]
    exact (ih _).trans rfl

/-- C8 counterexample.  With one well-formed and one malformed entry, both
within the migration threshold, the scan returns only the well-formed
entry (the malformed one is skipped without aborting - those conjuncts of
the claim hold) but the migration run's errors counter stays 0: the
swallowed per-key failure is logged only, never counted, contradicting the
claim's last conjunct. -/
theorem c8_malformed_skipped_but_not_counted :
    getKeysNearExpiry none REDIS_MIGRATION_THRESHOLD worldC8.cache
        = [mkEntry "meta:cam1:0" 0 100 "a"]
    ∧ badEntry.parseable = false
    ∧ (0 < badEntry.ttl ∧ badEntry.ttl ≤ REDIS_MIGRATION_THRESHOLD)
    ∧ (runMigrationCheck migrationServiceCfg worldC8).1.errors = 0 := by
  refine ⟨?_, rfl, ?_, ?_⟩
  · with_unfolding_all decide
  · constructor <;> decide
  · with_unfolding_all decide

/-- C8 as amended.  Every entry returned by the expiry scan has
0 < ttl_remaining <= threshold; malformed entries are skipped without
aborting the scan - the scan of a cache equals the scan of the same cache
with the malformed entries removed, so the well-formed entries are still
returned; but the failure is only logged, not reported: the run's errors
counter is 0 on every world in this exception-free model, malformed
entries included. -/
theorem c8_expiry_scan_amended :
    (∀ (f : Option String) (t : ℤ) (cache : List CacheEntry),
        ∀ e ∈ getKeysNearExpiry f t cache, 0 < e.ttl ∧ e.ttl ≤ t)
    ∧ (∀ (f : Option String) (t : ℤ) (cache : List CacheEntry),
        getKeysNearExpiry f t cache
          = getKeysNearExpiry f t (cache.filter (fun e => e.parseable)))
    ∧ (∀ (cfg : MigCfg) (w : World), (runMigrationCheck cfg w).1.errors = 0) := by
  refine ⟨?_, ?_, ?_⟩
  · intro f t cache e he
    unfold getKeysNearExpiry at he
    have hmem := (List.mem_filter.mp he).2
    simp only [Bool.and_eq_true, decide_eq_true_eq] at hmem
    exact ⟨hmem.1.1.2, hmem.1.2⟩
  · intro f t cache
    unfold getKeysNearExpiry
    rw [List.filter_filter]
    apply List.filter_congr
    intro e _
    cases hp : e.parseable
    · simp [hp]
    · simp [hp]
  · intro cfg w
    unfold runMigrationCheck
    dsimp only
    by_cases h : ((getKeysNearExpiry none REDIS_MIGRATION_THRESHOLD w.cache).map toItem).isEmpty
    · rw [if_pos h]
    · rw [if_neg h]
      exact (runFold_errors cfg _ _).trans rfl

/-- Witness for c8_expiry_scan_amended: the entry the scan returns on
worldC8 indeed has 0 < ttl <= threshold. -/
theorem c8_witness :
    0 < (mkEntry "meta:cam1:0" 0 100 "a").ttl
    ∧ (mkEntry "meta:cam1:0" 0 100 "a").ttl ≤ REDIS_MIGRATION_THRESHOLD :=
  c8_expiry_scan_amended.1 none REDIS_MIGRATION_THRESHOLD worldC8.cache
    (mkEntry "meta:cam1:0" 0 100 "a") (by with_unfolding_all decide)

end CCTView

